import Mathlib

/-!
Verification development for the codemode core of the emceepee MCP gateway:
the `codemode_search` engine (`src/codemode/search.ts`), the backend
`ServerRegistry`, and the billable-call accounting of the sandbox Capability
API.  Host regular expressions are abstracted as a matching oracle: a compiled
pattern is its matching function, and regex compilation is a parameter
`parse : String → Option Regex` (compilation either succeeds with a matcher or
fails, which is all the code under study observes).
-/

namespace Emceepee

-- =============================================================================
-- Regex abstraction
-- =============================================================================

/-- A compiled (case-insensitive) regular expression, abstracted as its
matching function. -/
structure Regex where
  test : String → Bool

/-- A regex compiler: `new RegExp(pattern, "i")` either yields a matcher or
throws, modelled as an `Option`. -/
def RegexCompiler : Type := String → Option Regex

/-- The metacharacters escaped by `createQueryRegex`:
the character class in `query.replace(/[.*+?^$\x7b\x7d()|[\]\\]/g, "\\$&")`. -/
def isRegexMeta (c : Char) : Bool :=
  c = '.' || c = '*' || c = '+' || c = '?' || c = '^' || c = '$' ||
  c = '\x7b' || c = '\x7d' || c = '(' || c = ')' || c = '|' ||
  c = '[' || c = ']' || c = '\\'

/-- `query.replace(/[.*+?^$\x7b\x7d()|[\]\\]/g, "\\$&")`: prefix every
metacharacter with a backslash. -/
def escapeRegex (s : String) : String :=
  ⟨s.data.foldr (fun c acc => if isRegexMeta c then '\\' :: c :: acc else c :: acc) []⟩

/-- `createQueryRegex` (search.ts:29-41): parse the query as a case-insensitive
regex; on failure escape the metacharacters and retry; on second failure
return null. -/
def createQueryRegex (parse : RegexCompiler) (query : String) : Option Regex :=
  match parse query with
  | some r => some r
  | none => parse (escapeRegex query)

/-- `matchesQuery` (search.ts:46-49): `if (!text) return false` — both a
missing and an empty string fail; otherwise test the regex. -/
def matchesQuery (text : Option String) (regex : Regex) : Bool :=
  match text with
  | none => false
  | some s => if s = "" then false else regex.test s

/-- `matchesServerFilter` (search.ts:54-64): no pattern matches everything;
a parseable pattern is used as a case-insensitive regex; otherwise fall back
to exact comparison after lower-casing both sides. -/
def matchesServerFilter (parse : RegexCompiler) (serverName : String)
    (serverPattern : Option String) : Bool :=
  match serverPattern with
  | none => true
  | some pat =>
    match parse pat with
    | some r => r.test serverName
    | none => serverName.toLower == pat.toLower

-- =============================================================================
-- Search data model
-- =============================================================================

/-- Connection status of a backend server. -/
inductive ServerStatus
  | connected
  | disconnected
  | reconnecting
  | error
deriving DecidableEq, Repr

/-- Capability flags advertised by a backend. -/
structure ServerCapabilities where
  tools : Bool
  resources : Bool
  prompts : Bool
deriving DecidableEq, Repr

/-- A tool as listed by a backend client. -/
structure ToolDef where
  name : String
  description : Option String
  inputSchema : String
deriving DecidableEq, Repr

/-- A resource as listed by a backend client. -/
structure ResourceDef where
  uri : String
  name : String
  description : Option String
  mimeType : Option String
deriving DecidableEq, Repr

/-- A resource template as listed by a backend client. -/
structure ResourceTemplateDef where
  uriTemplate : String
  name : String
  description : Option String
  mimeType : Option String
deriving DecidableEq, Repr

/-- An argument declared by a prompt. -/
structure PromptArgDef where
  name : String
  description : Option String
  required : Option Bool
deriving DecidableEq, Repr

/-- A prompt as listed by a backend client. -/
structure PromptDef where
  name : String
  description : Option String
  arguments : Option (List PromptArgDef)
deriving DecidableEq, Repr

/-- The view of a backend client used by the search path: each enumeration
either yields a list or throws, and `getInfo().capabilities` may be absent. -/
structure SessionClient where
  listTools : Except String (List ToolDef)
  listResources : Except String (List ResourceDef)
  listPrompts : Except String (List PromptDef)
  capabilities : Option ServerCapabilities

/-- A named backend connection held by the session. -/
structure Connection where
  name : String
  status : ServerStatus
  client : SessionClient

/-- The session state as seen by the search engine. -/
structure SessionState where
  sessionId : String
  connections : List Connection

/-- `session.getConnection(name)`: find the connection with the given name. -/
def SessionState.getConnection (s : SessionState) (name : String) : Option Connection :=
  s.connections.find? (fun c => c.name == name)

/-- Modelled from the spec: `getMatchingClients` lives in
`src/codemode/api-bindings.ts`, which is not among the provided sources.  Per
the spec, fan-out enumerates only connections with `status == "connected"`
whose name matches the server pattern (case-insensitive regex if parseable,
otherwise lower-cased equality, i.e. `matchesServerFilter`). -/
def getMatchingClients (parse : RegexCompiler) (session : SessionState)
    (serverPattern : Option String) : List (String × SessionClient) :=
  (session.connections.filter
      (fun c => c.status == ServerStatus.connected &&
                matchesServerFilter parse c.name serverPattern)).map
    (fun c => (c.name, c.client))

/-- A server entry returned by the session manager. -/
structure ManagedServerInfo where
  name : String
  status : ServerStatus
deriving DecidableEq, Repr

/-- Modelled from the spec: `SessionManager` lives in
`src/session/session-manager.ts`, which is not among the provided sources.
`listServers` returns the snapshot of all registered servers regardless of
status, each with its current status. -/
structure SessionManager where
  servers : List ManagedServerInfo

/-- Modelled from the spec: `sessionManager.listServers(sessionId)` returns
the registered-server snapshot for the session. -/
def SessionManager.listServers (m : SessionManager) (_sessionId : String) :
    List ManagedServerInfo :=
  m.servers

-- =============================================================================
-- Search result records (types.ts shapes used by search.ts)
-- =============================================================================

/-- A tool search hit. -/
structure SearchToolResult where
  server : String
  name : String
  description : Option String
  inputSchema : Option String
deriving DecidableEq, Repr

/-- A resource search hit. -/
structure SearchResourceResult where
  server : String
  uri : String
  name : String
  description : Option String
  mimeType : Option String
deriving DecidableEq, Repr

/-- A prompt argument in a search hit. -/
structure SearchPromptArg where
  name : String
  required : Option Bool
deriving DecidableEq, Repr

/-- A prompt search hit. -/
structure SearchPromptResult where
  server : String
  name : String
  description : Option String
  arguments : Option (List SearchPromptArg)
deriving DecidableEq, Repr

/-- A server search hit. -/
structure SearchServerResult where
  name : String
  status : ServerStatus
  capabilities : ServerCapabilities
deriving DecidableEq, Repr

/-- The `type` filter of a search query. -/
inductive SearchType
  | tools
  | resources
  | prompts
  | servers
  | all
deriving DecidableEq, Repr

/-- A search query. -/
structure SearchQuery where
  query : String
  type : SearchType
  server : Option String
  includeSchemas : Option Bool
deriving DecidableEq, Repr

/-- The grouped search result: a category key is present exactly when the
type filter requested it. -/
structure SearchResult where
  tools : Option (List SearchToolResult)
  resources : Option (List SearchResourceResult)
  prompts : Option (List SearchPromptResult)
  servers : Option (List SearchServerResult)
deriving DecidableEq, Repr

/-- `return \x7b\x7d` — the grouped result with no category keys at all. -/
def SearchResult.empty : SearchResult :=
  { tools := none, resources := none, prompts := none, servers := none }

-- =============================================================================
-- Search functions (search.ts:142-302, 87-133)
-- =============================================================================

/-- `searchTools` (search.ts:142-182): iterate matching clients, re-check the
server filter, list tools (a throwing server is skipped), keep tools whose
name or description matches, include the schema only on request. -/
def searchTools (parse : RegexCompiler) (session : SessionState) (queryRegex : Regex)
    (serverPattern : Option String) (includeSchemas : Option Bool) :
    List SearchToolResult :=
  (getMatchingClients parse session serverPattern).flatMap (fun nc =>
    if !matchesServerFilter parse nc.1 serverPattern then []
    else
      match nc.2.listTools with
      | .error _ => []
      | .ok tools =>
        tools.filterMap (fun tool =>
          if matchesQuery (some tool.name) queryRegex ||
             matchesQuery tool.description queryRegex then
            some { server := nc.1, name := tool.name, description := tool.description,
                   inputSchema :=
                     if includeSchemas.getD false then some tool.inputSchema else none }
          else none))

/-- `searchResources` (search.ts:187-223): as `searchTools`, matching against
name, uri and description. -/
def searchResources (parse : RegexCompiler) (session : SessionState)
    (queryRegex : Regex) (serverPattern : Option String) :
    List SearchResourceResult :=
  (getMatchingClients parse session serverPattern).flatMap (fun nc =>
    if !matchesServerFilter parse nc.1 serverPattern then []
    else
      match nc.2.listResources with
      | .error _ => []
      | .ok resources =>
        resources.filterMap (fun resource =>
          if matchesQuery (some resource.name) queryRegex ||
             matchesQuery (some resource.uri) queryRegex ||
             matchesQuery resource.description queryRegex then
            some { server := nc.1, uri := resource.uri, name := resource.name,
                   description := resource.description, mimeType := resource.mimeType }
          else none))

/-- `searchPrompts` (search.ts:228-265): as `searchTools`, matching against
name and description. -/
def searchPrompts (parse : RegexCompiler) (session : SessionState)
    (queryRegex : Regex) (serverPattern : Option String) :
    List SearchPromptResult :=
  (getMatchingClients parse session serverPattern).flatMap (fun nc =>
    if !matchesServerFilter parse nc.1 serverPattern then []
    else
      match nc.2.listPrompts with
      | .error _ => []
      | .ok prompts =>
        prompts.filterMap (fun prompt =>
          if matchesQuery (some prompt.name) queryRegex ||
             matchesQuery prompt.description queryRegex then
            some { server := nc.1, name := prompt.name, description := prompt.description,
                   arguments := prompt.arguments.map (fun args =>
                     args.map (fun arg => ⟨arg.name, arg.required⟩)) }
          else none))

/-- `searchServers` (search.ts:270-302): iterate the manager's server
snapshot, apply the server filter and match the query against the name; the
status is reported as-is, and capabilities default to false when the
connection or its capability record is absent. -/
def searchServers (parse : RegexCompiler) (session : SessionState)
    (manager : SessionManager) (queryRegex : Regex) (serverPattern : Option String) :
    List SearchServerResult :=
  (manager.listServers session.sessionId).filterMap (fun server =>
    if !matchesServerFilter parse server.name serverPattern then none
    else if matchesQuery (some server.name) queryRegex then
      let caps := (session.getConnection server.name).bind (fun c => c.client.capabilities)
      some { name := server.name, status := server.status,
             capabilities :=
               { tools := (caps.map (fun k => k.tools)).getD false,
                 resources := (caps.map (fun k => k.resources)).getD false,
                 prompts := (caps.map (fun k => k.prompts)).getD false } }
    else none)

/-- `search` (search.ts:87-133): compile the query regex (empty result when
that fails) and populate exactly the categories the type filter requests. -/
def search (parse : RegexCompiler) (query : SearchQuery) (session : SessionState)
    (manager : SessionManager) : SearchResult :=
  match createQueryRegex parse query.query with
  | none => SearchResult.empty
  | some queryRegex =>
    { tools :=
        if query.type == SearchType.tools || query.type == SearchType.all then
          some (searchTools parse session queryRegex query.server query.includeSchemas)
        else none,
      resources :=
        if query.type == SearchType.resources || query.type == SearchType.all then
          some (searchResources parse session queryRegex query.server)
        else none,
      prompts :=
        if query.type == SearchType.prompts || query.type == SearchType.all then
          some (searchPrompts parse session queryRegex query.server)
        else none,
      servers :=
        if query.type == SearchType.servers || query.type == SearchType.all then
          some (searchServers parse session manager queryRegex query.server)
        else none }

-- =============================================================================
-- ServerRegistry (registry portion of the source, lines 402-954)
-- =============================================================================

/-- An `MCPHttpClient` handle as the registry observes it: a connection flag
and the backend operations, each of which may throw.  Invocation payloads are
abstracted as strings since the registry forwards them opaquely. -/
structure RegistryClient where
  connected : Bool
  listTools : Except String (List ToolDef)
  listResources : Except String (List ResourceDef)
  listResourceTemplates : Except String (List ResourceTemplateDef)
  listPrompts : Except String (List PromptDef)
  callTool : String → List (String × String) → Except String String
  readResource : String → Except String String
  getPrompt : String → List (String × String) → Except String String

/-- A pending sampling or elicitation request: its id and originating server. -/
structure PendingRequest where
  id : String
  server : String
deriving DecidableEq, Repr

/-- The registry state: clients keyed by server name (map iteration order =
insertion order), notification and log buffers, and the two pending-request
maps. -/
structure Registry where
  clients : List (String × RegistryClient)
  notifications : List String
  logs : List String
  pendingSampling : List PendingRequest
  pendingElicitation : List PendingRequest

/-- A tool tagged with the server it came from (`\x7b ...tool, server \x7d`). -/
structure BackendTool where
  server : String
  name : String
  description : Option String
  inputSchema : String
deriving DecidableEq, Repr

/-- A resource tagged with its server. -/
structure BackendResource where
  server : String
  uri : String
  name : String
  description : Option String
  mimeType : Option String
deriving DecidableEq, Repr

/-- A resource template tagged with its server. -/
structure BackendResourceTemplate where
  server : String
  uriTemplate : String
  name : String
  description : Option String
  mimeType : Option String
deriving DecidableEq, Repr

/-- A prompt tagged with its server. -/
structure BackendPrompt where
  server : String
  name : String
  description : Option String
  arguments : Option (List PromptArgDef)
deriving DecidableEq, Repr

/-- Tag a listed tool with its server name. -/
def tagTool (server : String) (t : ToolDef) : BackendTool :=
  { server := server, name := t.name, description := t.description,
    inputSchema := t.inputSchema }

/-- Tag a listed resource with its server name. -/
def tagResource (server : String) (r : ResourceDef) : BackendResource :=
  { server := server, uri := r.uri, name := r.name, description := r.description,
    mimeType := r.mimeType }

/-- Tag a listed resource template with its server name. -/
def tagTemplate (server : String) (t : ResourceTemplateDef) : BackendResourceTemplate :=
  { server := server, uriTemplate := t.uriTemplate, name := t.name,
    description := t.description, mimeType := t.mimeType }

/-- Tag a listed prompt with its server name. -/
def tagPrompt (server : String) (p : PromptDef) : BackendPrompt :=
  { server := server, name := p.name, description := p.description,
    arguments := p.arguments }

/-- Error message of `getConnectedClient` for an absent server. -/
def errNotFound (name : String) : String :=
  "Server \x27" ++ name ++ "\x27 not found"

/-- Error message of `getConnectedClient` for a disconnected server. -/
def errNotConnected (name : String) : String :=
  "Server \x27" ++ name ++ "\x27 is not connected"

/-- Error message of `addServer` for a duplicate name. -/
def errAlreadyExists (name : String) : String :=
  "Server \x27" ++ name ++ "\x27 already exists"

/-- Rejection message used by `removeServer` for that server's pending
requests. -/
def errDisconnected (name : String) : String :=
  "Server \x27" ++ name ++ "\x27 disconnected"

/-- Rejection message used by `shutdown` for all pending requests. -/
def errShuttingDown : String := "Registry shutting down"

/-- `hasServer` (source line 518-520). -/
def Registry.hasServer (reg : Registry) (name : String) : Bool :=
  (reg.clients.lookup name).isSome

/-- `getConnectedClient` (source lines 924-933): throw when the server is
absent, throw when it is not connected, otherwise return the client. -/
def Registry.getConnectedClient (reg : Registry) (name : String) :
    Except String RegistryClient :=
  match reg.clients.lookup name with
  | none => .error (errNotFound name)
  | some client =>
    if client.connected then .ok client else .error (errNotConnected name)

/-- The fan-out branch of `listTools` (source lines 537-549): enumerate only
connected clients, skip servers whose enumeration throws, tag each tool. -/
def Registry.listToolsAll (reg : Registry) : List BackendTool :=
  reg.clients.flatMap (fun nc =>
    if nc.2.connected then
      match nc.2.listTools with
      | .ok ts => ts.map (tagTool nc.1)
      | .error _ => []
    else [])

/-- `listTools` (source lines 528-553): targeted when a server name is given
(errors propagate), fan-out otherwise. -/
def Registry.listTools (reg : Registry) (serverName : Option String) :
    Except String (List BackendTool) :=
  match serverName with
  | some name =>
    match reg.getConnectedClient name with
    | .error e => .error e
    | .ok client =>
      match client.listTools with
      | .error e => .error e
      | .ok ts => .ok (ts.map (tagTool name))
  | none => .ok reg.listToolsAll

/-- `executeTool` (source lines 562-569). -/
def Registry.executeTool (reg : Registry) (serverName toolName : String)
    (args : List (String × String)) : Except String String :=
  match reg.getConnectedClient serverName with
  | .error e => .error e
  | .ok client => client.callTool toolName args

/-- The fan-out branch of `listResources` (source lines 585-597). -/
def Registry.listResourcesAll (reg : Registry) : List BackendResource :=
  reg.clients.flatMap (fun nc =>
    if nc.2.connected then
      match nc.2.listResources with
      | .ok rs => rs.map (tagResource nc.1)
      | .error _ => []
    else [])

/-- `listResources` (source lines 576-601). -/
def Registry.listResources (reg : Registry) (serverName : Option String) :
    Except String (List BackendResource) :=
  match serverName with
  | some name =>
    match reg.getConnectedClient name with
    | .error e => .error e
    | .ok client =>
      match client.listResources with
      | .error e => .error e
      | .ok rs => .ok (rs.map (tagResource name))
  | none => .ok reg.listResourcesAll

/-- The fan-out branch of `listResourceTemplates` (source lines 617-629). -/
def Registry.listResourceTemplatesAll (reg : Registry) : List BackendResourceTemplate :=
  reg.clients.flatMap (fun nc =>
    if nc.2.connected then
      match nc.2.listResourceTemplates with
      | .ok ts => ts.map (tagTemplate nc.1)
      | .error _ => []
    else [])

/-- `listResourceTemplates` (source lines 608-633). -/
def Registry.listResourceTemplates (reg : Registry) (serverName : Option String) :
    Except String (List BackendResourceTemplate) :=
  match serverName with
  | some name =>
    match reg.getConnectedClient name with
    | .error e => .error e
    | .ok client =>
      match client.listResourceTemplates with
      | .error e => .error e
      | .ok ts => .ok (ts.map (tagTemplate name))
  | none => .ok reg.listResourceTemplatesAll

/-- `readResource` (source lines 641-644). -/
def Registry.readResource (reg : Registry) (serverName uri : String) :
    Except String String :=
  match reg.getConnectedClient serverName with
  | .error e => .error e
  | .ok client => client.readResource uri

/-- The fan-out branch of `listPrompts` (source lines 660-672). -/
def Registry.listPromptsAll (reg : Registry) : List BackendPrompt :=
  reg.clients.flatMap (fun nc =>
    if nc.2.connected then
      match nc.2.listPrompts with
      | .ok ps => ps.map (tagPrompt nc.1)
      | .error _ => []
    else [])

/-- `listPrompts` (source lines 651-676). -/
def Registry.listPrompts (reg : Registry) (serverName : Option String) :
    Except String (List BackendPrompt) :=
  match serverName with
  | some name =>
    match reg.getConnectedClient name with
    | .error e => .error e
    | .ok client =>
      match client.listPrompts with
      | .error e => .error e
      | .ok ps => .ok (ps.map (tagPrompt name))
  | none => .ok reg.listPromptsAll

/-- `getPrompt` (source lines 685-692). -/
def Registry.getPrompt (reg : Registry) (serverName promptName : String)
    (args : List (String × String)) : Except String String :=
  match reg.getConnectedClient serverName with
  | .error e => .error e
  | .ok client => client.getPrompt promptName args

/-- `getNotifications` (source lines 699-703): return the buffered entries
and clear the buffer. -/
def Registry.getNotifications (reg : Registry) : List String × Registry :=
  (reg.notifications, { reg with notifications := [] })

/-- `getNotificationCount` (source lines 708-710). -/
def Registry.getNotificationCount (reg : Registry) : Nat :=
  reg.notifications.length

/-- `getLogs` (source lines 748-752): return the buffered log entries and
clear the buffer. -/
def Registry.getLogs (reg : Registry) : List String × Registry :=
  (reg.logs, { reg with logs := [] })

/-- `getLogCount` (source lines 757-759). -/
def Registry.getLogCount (reg : Registry) : Nat :=
  reg.logs.length

/-- `addServer` (source lines 424-459): throw when the name is taken (the
registry is untouched in that case, since the throw happens before any
mutation); otherwise register the client, which stays registered — with a
failed/error status — even when connecting to the backend fails.  The connect
outcome is a parameter since the network is outside the model. -/
def Registry.addServer (reg : Registry) (name : String) (client : RegistryClient)
    (connectOk : Bool) : Except String Registry :=
  if reg.hasServer name then .error (errAlreadyExists name)
  else .ok { reg with clients := reg.clients ++ [(name, { client with connected := connectOk })] }

/-- `removeServer` (source lines 467-491): throw when the server is absent;
otherwise reject exactly that server's pending sampling and elicitation
requests (in buffer order, sampling first) and drop them from the pending
maps, then drop the client.  The emitted rejections are returned as
`(requestId, errorMessage)` pairs. -/
def Registry.removeServer (reg : Registry) (name : String) :
    Except String (List (String × String) × Registry) :=
  match reg.clients.lookup name with
  | none => .error (errNotFound name)
  | some _ =>
    .ok ((reg.pendingSampling.filter (fun r => r.server == name)).map
           (fun r => (r.id, errDisconnected name)) ++
         (reg.pendingElicitation.filter (fun r => r.server == name)).map
           (fun r => (r.id, errDisconnected name)),
         { reg with
             clients := reg.clients.filter (fun c => c.1 != name),
             pendingSampling := reg.pendingSampling.filter (fun r => r.server != name),
             pendingElicitation := reg.pendingElicitation.filter (fun r => r.server != name) })

/-- `shutdown` (source lines 715-737): reject every pending request (sampling
first, then elicitation, each in buffer order), then clear every map and
buffer. -/
def Registry.shutdown (reg : Registry) : List (String × String) × Registry :=
  (reg.pendingSampling.map (fun r => (r.id, errShuttingDown)) ++
     reg.pendingElicitation.map (fun r => (r.id, errShuttingDown)),
   { clients := [], notifications := [], logs := [],
     pendingSampling := [], pendingElicitation := [] })

-- =============================================================================
-- Sandbox Capability API call accounting
-- =============================================================================

/-- A Capability API invocation made by a sandbox run. -/
inductive SandboxOp
  | listServers
  | listTools
  | callTool
  | listResources
  | listResourceTemplates
  | readResource
  | listPrompts
  | getPrompt
  | sleep
  | log
deriving DecidableEq, Repr

/-- Whether an invocation is billable: every method except `sleep` and `log`. -/
def SandboxOp.billable : SandboxOp → Bool
  | .sleep => false
  | .log => false
  | _ => true

/-- The per-run execution context fields relevant to call accounting. -/
structure ExecutionContext where
  maxMcpCalls : Nat
  callCount : Nat
deriving DecidableEq, Repr

/-- The canonical budget-exhaustion message. -/
def callLimitError (maxMcpCalls : Nat) : String :=
  "Maximum mcp.* call limit exceeded (" ++ toString maxMcpCalls ++ ")"

/-- Modelled from the spec: the billable-call gate of the Capability API
(`src/codemode/api-bindings.ts` is not among the provided sources).  Before
performing any work the runtime pre-increments `callCount`; when the
post-increment value exceeds `maxMcpCalls` the call fails with the canonical
message and the registry is not contacted. -/
def checkCallLimit (ctx : ExecutionContext) : ExecutionContext × Option String :=
  let incremented := { ctx with callCount := ctx.callCount + 1 }
  if incremented.callCount > ctx.maxMcpCalls then
    (incremented, some (callLimitError ctx.maxMcpCalls))
  else (incremented, none)

/-- Modelled from the spec: a sandbox run as the sequence of Capability API
invocations the user fragment issues (the single-threaded cooperative
scheduler makes them sequential).  Each billable invocation passes through
the gate: on gate failure the run halts with the error and without a registry
contact; otherwise the registry is contacted once and the run continues.
`sleep` and `log` touch neither the counter nor the registry.  Returns the
final context, the number of registry contacts, and the error if any. -/
def runSandboxOps (ctx : ExecutionContext) (contacts : Nat) :
    List SandboxOp → ExecutionContext × Nat × Option String
  | [] => (ctx, contacts, none)
  | op :: rest =>
    if op.billable then
      match checkCallLimit ctx with
      | (incremented, some e) => (incremented, contacts, some e)
      | (incremented, none) => runSandboxOps incremented (contacts + 1) rest
    else runSandboxOps ctx contacts rest

/-- The number of billable invocations in a run. -/
def countBillable (ops : List SandboxOp) : Nat :=
  (ops.filter (fun op => op.billable)).length

-- =============================================================================
-- Concrete test doubles for witnesses and counterexamples
-- =============================================================================

/-- A matcher that accepts every string (like the regex `.*`). -/
def regexAll : Regex := ⟨fun _ => true⟩

/-- A compiler oracle for which every pattern parses to the accept-all
matcher. -/
def parseAll : RegexCompiler := fun _ => some regexAll

/-- A compiler oracle for which no pattern parses. -/
def parseNone : RegexCompiler := fun _ => none

/-- A session with no backend connections. -/
def sessionEmpty : SessionState := ⟨"session-1", []⟩

/-- A manager snapshot holding one registered server, `alpha`, whose status is
disconnected. -/
def managerAlpha : SessionManager := ⟨[⟨"alpha", ServerStatus.disconnected⟩]⟩

/-- A registry client stub whose enumerations succeed with empty lists. -/
def clientStub (connected : Bool) : RegistryClient :=
  { connected := connected,
    listTools := .ok [], listResources := .ok [],
    listResourceTemplates := .ok [], listPrompts := .ok [],
    callTool := fun _ _ => .ok "", readResource := fun _ => .ok "",
    getPrompt := fun _ _ => .ok "" }

/-- A registry with one connected server `a` and pending requests from `a`
and from `b`. -/
def registrySample : Registry :=
  { clients := [("a", clientStub true)],
    notifications := ["n1", "n2"],
    logs := ["l1"],
    pendingSampling := [⟨"r1", "a"⟩, ⟨"r2", "b"⟩],
    pendingElicitation := [⟨"e1", "a"⟩] }

/-- A registry with one registered but disconnected server `offline`. -/
def registryOffline : Registry :=
  { clients := [("offline", clientStub false)],
    notifications := [], logs := [],
    pendingSampling := [], pendingElicitation := [] }

/-- A session client whose every enumeration throws. -/
def clientFailAll : SessionClient :=
  { listTools := .error "boom", listResources := .error "boom",
    listPrompts := .error "boom", capabilities := none }

/-- A connected backend whose every enumeration throws. -/
def connFail : Connection := ⟨"alpha", ServerStatus.connected, clientFailAll⟩

/-- A session whose single connected backend fails every enumeration. -/
def sessionFail : SessionState := ⟨"session-2", [connFail]⟩

-- =============================================================================
-- Helper lemmas
-- =============================================================================

theorem lookup_append_of_none {β : Type} (l1 l2 : List (String × β)) (a : String)
    (h : l1.lookup a = none) : (l1 ++ l2).lookup a = l2.lookup a := by
  induction l1 with
  | nil => rfl
  | cons p l ih =>
    rcases p with ⟨k, v⟩
    cases hk : (a == k) with
    | true =>
      rw [List.lookup, hk] at h
      exact absurd h (by simp)
    | false =>
      have h2 : l.lookup a = none := by rwa [List.lookup, hk] at h
      rw [List.cons_append, List.lookup, hk]
      exact ih h2

-- =============================================================================
-- Claim theorems
-- =============================================================================

/-- C8: `getNotifications` (and likewise `getLogs`) returns the buffered
entries accumulated since the previous drain in insertion order, and clears
the buffer: afterwards the buffered count is zero and a second consecutive
call returns the empty list. -/
theorem getNotifications_getLogs_drain (reg : Registry) :
    (reg.getNotifications).1 = reg.notifications ∧
    (reg.getNotifications).2.notifications = [] ∧
    ((reg.getNotifications).2).getNotificationCount = 0 ∧
    (((reg.getNotifications).2).getNotifications).1 = [] ∧
    (reg.getLogs).1 = reg.logs ∧
    (reg.getLogs).2.logs = [] ∧
    ((reg.getLogs).2).getLogCount = 0 ∧
    (((reg.getLogs).2).getLogs).1 = [] := by
  simp [Registry.getNotifications, Registry.getLogs,
    Registry.getNotificationCount, Registry.getLogCount]

/-- C10: `addServer` throws `Server '<name>' already exists` exactly when the
name is registered (the throw happens before any mutation, so the registry is
unchanged); otherwise the server is registered and `hasServer` holds
afterwards regardless of whether connecting succeeded. -/
theorem addServer_registration (reg : Registry) (name : String)
    (client : RegistryClient) (connectOk : Bool) :
    (reg.hasServer name = true →
       reg.addServer name client connectOk = .error (errAlreadyExists name)) ∧
    (reg.hasServer name = false →
       reg.addServer name client connectOk =
         .ok { reg with clients :=
                 reg.clients ++ [(name, { client with connected := connectOk })] } ∧
       Registry.hasServer
         { reg with clients :=
             reg.clients ++ [(name, { client with connected := connectOk })] }
         name = true) := by
  constructor
  · intro h
    simp [Registry.addServer, h]
  · intro h
    constructor
    · simp [Registry.addServer, h]
    · have hnone : reg.clients.lookup name = none := by
        cases hl : reg.clients.lookup name with
        | none => rfl
        | some c => simp [Registry.hasServer, hl] at h
      simp [Registry.hasServer, lookup_append_of_none _ _ _ hnone, List.lookup]

/-- C10 witness: on a registry holding only server `a`, re-adding `a` throws
the duplicate error, and adding `b` leaves `b` registered. -/
theorem addServer_registration_witness :
    registrySample.addServer "a" (clientStub true) true =
      .error (errAlreadyExists "a") ∧
    Registry.hasServer
      { registrySample with clients :=
          registrySample.clients ++ [("b", { clientStub true with connected := false })] }
      "b" = true :=
  ⟨(addServer_registration registrySample "a" (clientStub true) true).1 rfl,
   ((addServer_registration registrySample "b" (clientStub true) false).2 rfl).2⟩

/-- C7: every targeted registry operation (executeTool, readResource,
getPrompt, and the list methods given an explicit server name) fails with the
descriptive error naming the server when the server is absent or its client
is not connected.  The conclusion holds for every registry, hence for every
behaviour of the client's backend operations: the backend is never
contacted. -/
theorem targeted_dispatch_gating (reg : Registry) (name toolName uri promptName : String)
    (args : List (String × String)) :
    (reg.clients.lookup name = none →
       reg.getConnectedClient name = .error (errNotFound name) ∧
       reg.executeTool name toolName args = .error (errNotFound name) ∧
       reg.readResource name uri = .error (errNotFound name) ∧
       reg.getPrompt name promptName args = .error (errNotFound name) ∧
       reg.listTools (some name) = .error (errNotFound name) ∧
       reg.listResources (some name) = .error (errNotFound name) ∧
       reg.listResourceTemplates (some name) = .error (errNotFound name) ∧
       reg.listPrompts (some name) = .error (errNotFound name)) ∧
    (∀ client, reg.clients.lookup name = some client → client.connected = false →
       reg.getConnectedClient name = .error (errNotConnected name) ∧
       reg.executeTool name toolName args = .error (errNotConnected name) ∧
       reg.readResource name uri = .error (errNotConnected name) ∧
       reg.getPrompt name promptName args = .error (errNotConnected name) ∧
       reg.listTools (some name) = .error (errNotConnected name) ∧
       reg.listResources (some name) = .error (errNotConnected name) ∧
       reg.listResourceTemplates (some name) = .error (errNotConnected name) ∧
       reg.listPrompts (some name) = .error (errNotConnected name)) := by
  constructor
  · intro h
    simp [Registry.getConnectedClient, Registry.executeTool, Registry.readResource,
      Registry.getPrompt, Registry.listTools, Registry.listResources,
      Registry.listResourceTemplates, Registry.listPrompts, h]
  · intro client hc hconn
    simp [Registry.getConnectedClient, Registry.executeTool, Registry.readResource,
      Registry.getPrompt, Registry.listTools, Registry.listResources,
      Registry.listResourceTemplates, Registry.listPrompts, hc, hconn]

/-- C7 witness: on a registry holding only the disconnected server `offline`,
calling a tool on the absent server `ghost` fails with the not-found error
and calling one on `offline` fails with the not-connected error. -/
theorem targeted_dispatch_gating_witness :
    registryOffline.executeTool "ghost" "echo" [] = .error (errNotFound "ghost") ∧
    registryOffline.executeTool "offline" "echo" [] = .error (errNotConnected "offline") ∧
    registryOffline.listTools (some "offline") = .error (errNotConnected "offline") :=
  ⟨((targeted_dispatch_gating registryOffline "ghost" "echo" "" "" []).1 rfl).2.1,
   ((targeted_dispatch_gating registryOffline "offline" "echo" "" "" []).2
      (clientStub false) rfl rfl).2.1,
   ((targeted_dispatch_gating registryOffline "offline" "echo" "" "" []).2
      (clientStub false) rfl rfl).2.2.2.2.1⟩

/-- C9: removing a server rejects exactly that server's pending sampling and
elicitation requests with `Server '<name>' disconnected` and drops them from
the pending maps, leaving other servers' pending requests untouched (and in
order); shutting down rejects every pending request with
`Registry shutting down` and empties both pending maps. -/
theorem removeServer_shutdown_pending (reg : Registry) (name : String) :
    (reg.clients.lookup name = none →
       reg.removeServer name = .error (errNotFound name)) ∧
    (∀ client, reg.clients.lookup name = some client →
       reg.removeServer name = .ok
         ((reg.pendingSampling.filter (fun r => r.server == name)).map
            (fun r => (r.id, errDisconnected name)) ++
          (reg.pendingElicitation.filter (fun r => r.server == name)).map
            (fun r => (r.id, errDisconnected name)),
          { reg with
              clients := reg.clients.filter (fun c => c.1 != name),
              pendingSampling := reg.pendingSampling.filter (fun r => r.server != name),
              pendingElicitation :=
                reg.pendingElicitation.filter (fun r => r.server != name) }) ∧
       (∀ rej reg2, reg.removeServer name = .ok (rej, reg2) →
          (∀ p ∈ rej, p.2 = errDisconnected name) ∧
          (∀ r ∈ reg.pendingSampling, r.server = name →
             (r.id, errDisconnected name) ∈ rej) ∧
          (∀ r ∈ reg.pendingElicitation, r.server = name →
             (r.id, errDisconnected name) ∈ rej) ∧
          (∀ r ∈ reg.pendingSampling, r.server ≠ name → r ∈ reg2.pendingSampling) ∧
          (∀ r ∈ reg2.pendingSampling, r ∈ reg.pendingSampling ∧ r.server ≠ name) ∧
          (∀ r ∈ reg.pendingElicitation, r.server ≠ name → r ∈ reg2.pendingElicitation) ∧
          (∀ r ∈ reg2.pendingElicitation, r ∈ reg.pendingElicitation ∧ r.server ≠ name))) ∧
    ((reg.shutdown).1 =
       reg.pendingSampling.map (fun r => (r.id, errShuttingDown)) ++
       reg.pendingElicitation.map (fun r => (r.id, errShuttingDown))) ∧
    (reg.shutdown).2.pendingSampling = [] ∧
    (reg.shutdown).2.pendingElicitation = [] := by
  refine ⟨?_, ?_, rfl, rfl, rfl⟩
  · intro h
    simp [Registry.removeServer, h]
  · intro client hc
    have hok : reg.removeServer name = .ok
        ((reg.pendingSampling.filter (fun r => r.server == name)).map
           (fun r => (r.id, errDisconnected name)) ++
         (reg.pendingElicitation.filter (fun r => r.server == name)).map
           (fun r => (r.id, errDisconnected name)),
         { reg with
             clients := reg.clients.filter (fun c => c.1 != name),
             pendingSampling := reg.pendingSampling.filter (fun r => r.server != name),
             pendingElicitation :=
               reg.pendingElicitation.filter (fun r => r.server != name) }) := by
      simp [Registry.removeServer, hc]
    refine ⟨hok, ?_⟩
    intro rej reg2 h2
    rw [hok] at h2
    injection h2 with hpair
    injection hpair with hrej hreg2
    subst hrej
    subst hreg2
    refine ⟨?_, ?_, ?_, ?_, ?_, ?_, ?_⟩
    · intro p hp
      simp only [List.mem_append, List.mem_map, List.mem_filter] at hp
      rcases hp with ⟨r, _, rfl⟩ | ⟨r, _, rfl⟩ <;> rfl
    · intro r hr hserver
      simp only [List.mem_append, List.mem_map, List.mem_filter]
      exact Or.inl ⟨r, ⟨hr, by simp [hserver]⟩, rfl⟩
    · intro r hr hserver
      simp only [List.mem_append, List.mem_map, List.mem_filter]
      exact Or.inr ⟨r, ⟨hr, by simp [hserver]⟩, rfl⟩
    · intro r hr hserver
      simp only [List.mem_filter]
      exact ⟨hr, by simpa using hserver⟩
    · intro r hr
      simp only [List.mem_filter] at hr
      exact ⟨hr.1, by simpa using hr.2⟩
    · intro r hr hserver
      simp only [List.mem_filter]
      exact ⟨hr, by simpa using hserver⟩
    · intro r hr
      simp only [List.mem_filter] at hr
      exact ⟨hr.1, by simpa using hr.2⟩

/-- C9 witness: on a registry whose pending requests are `r1`, `e1` (from
server `a`) and `r2` (from server `b`), removing `a` rejects exactly `r1` and
`e1` with the disconnect message and keeps `r2` pending; shutdown rejects
everything with the shutdown message and empties the pending maps. -/
theorem removeServer_shutdown_pending_witness :
    registrySample.removeServer "a" = .ok
      ([("r1", errDisconnected "a"), ("e1", errDisconnected "a")],
       { registrySample with
           clients := [],
           pendingSampling := [⟨"r2", "b"⟩],
           pendingElicitation := [] }) ∧
    (registrySample.shutdown).1 =
      [("r1", errShuttingDown), ("r2", errShuttingDown), ("e1", errShuttingDown)] ∧
    (registrySample.shutdown).2.pendingSampling = [] :=
  ⟨by
     have h := ((removeServer_shutdown_pending registrySample "a").2.1
       (clientStub true) rfl).1
     simpa [registrySample] using h,
   by
     have h := (removeServer_shutdown_pending registrySample "a").2.2.1
     simpa [registrySample] using h,
   (removeServer_shutdown_pending registrySample "a").2.2.2.1⟩


/-- C6: a server filter pattern is interpreted as a case-insensitive regular
expression when it parses, and otherwise a server matches exactly when its
name equals the pattern after lower-casing both sides.  There is no
escape-and-retry step: the outcome depends only on the parse of the pattern
itself, so any two compilers agreeing on the pattern agree on the result (in
contrast with `createQueryRegex`, which consults the escaped pattern on
failure). -/
theorem matchesServerFilter_semantics (parse parse2 : RegexCompiler)
    (name pat : String) :
    matchesServerFilter parse name none = true ∧
    (∀ r, parse pat = some r →
       matchesServerFilter parse name (some pat) = r.test name) ∧
    (parse pat = none →
       matchesServerFilter parse name (some pat) = (name.toLower == pat.toLower)) ∧
    (parse pat = parse2 pat →
       matchesServerFilter parse name (some pat) =
         matchesServerFilter parse2 name (some pat)) := by
  refine ⟨rfl, ?_, ?_, ?_⟩
  · intro r h
    simp [matchesServerFilter, h]
  · intro h
    simp [matchesServerFilter, h]
  · intro h
    simp [matchesServerFilter, h]

/-- C6 witness: under a compiler for which nothing parses, the filter for
pattern `Alpha` against server `ALPHA` reduces to the lower-cased equality
check; under the accept-all compiler it is the regex test. -/
theorem matchesServerFilter_semantics_witness :
    matchesServerFilter parseNone "ALPHA" (some "Alpha") =
      ("ALPHA".toLower == "Alpha".toLower) ∧
    matchesServerFilter parseAll "ALPHA" (some "Alpha") = regexAll.test "ALPHA" :=
  ⟨(matchesServerFilter_semantics parseNone parseNone "ALPHA" "Alpha").2.2.1 rfl,
   (matchesServerFilter_semantics parseAll parseAll "ALPHA" "Alpha").2.1 regexAll rfl⟩

/-- C2: the query is first parsed as a case-insensitive regex; on failure the
metacharacters are escaped and the parse retried; when the second parse also
fails, `search` returns the grouped result with no category keys at all,
regardless of the requested type. -/
theorem search_query_regex_fallback (parse : RegexCompiler) (q : SearchQuery)
    (session : SessionState) (manager : SessionManager) :
    (∀ r, parse q.query = some r → createQueryRegex parse q.query = some r) ∧
    (parse q.query = none →
       createQueryRegex parse q.query = parse (escapeRegex q.query)) ∧
    (parse q.query = none → parse (escapeRegex q.query) = none →
       search parse q session manager = SearchResult.empty) := by
  refine ⟨?_, ?_, ?_⟩
  · intro r h
    simp [createQueryRegex, h]
  · intro h
    simp [createQueryRegex, h]
  · intro h1 h2
    simp [search, createQueryRegex, h1, h2]

/-- C2 witness: under a compiler for which nothing parses, searching for the
(invalid-regex) query `(` with type `all` yields the empty grouped result. -/
theorem search_query_regex_fallback_witness :
    parseNone "(" = none ∧
    search parseNone ⟨"(", SearchType.all, none, none⟩ sessionEmpty managerAlpha =
      SearchResult.empty :=
  ⟨rfl,
   (search_query_regex_fallback parseNone ⟨"(", SearchType.all, none, none⟩
      sessionEmpty managerAlpha).2.2 rfl rfl⟩

/-- Characterization of a sandbox run's call accounting: starting below the
budget, a run either completes all its billable invocations within budget, or
halts at the first invocation whose pre-incremented count exceeds it, with
the canonical error and no registry contact for the failing invocation. -/
theorem runSandboxOps_characterization (maxCalls : Nat) (ops : List SandboxOp)
    (c k : Nat) (h : c ≤ maxCalls) :
    runSandboxOps ⟨maxCalls, c⟩ k ops =
      if c + countBillable ops ≤ maxCalls then
        (⟨maxCalls, c + countBillable ops⟩, k + countBillable ops, none)
      else (⟨maxCalls, maxCalls + 1⟩, k + (maxCalls - c), some (callLimitError maxCalls)) := by
  induction ops generalizing c k with
  | nil =>
    simp only [runSandboxOps, countBillable, List.filter_nil, List.length_nil, Nat.add_zero]
    rw [if_pos h]
  | cons op rest ih =>
    by_cases hb : op.billable = true
    · have hcount : countBillable (op :: rest) = countBillable rest + 1 := by
        simp [countBillable, List.filter_cons, hb, Nat.add_comm]
      by_cases hc : c = maxCalls
      · subst hc
        have hgate : checkCallLimit ⟨c, c⟩ = (⟨c, c + 1⟩, some (callLimitError c)) := by
          simp [checkCallLimit]
        have hstep : runSandboxOps ⟨c, c⟩ k (op :: rest) =
            (⟨c, c + 1⟩, k, some (callLimitError c)) := by
          simp [runSandboxOps, hb, hgate]
        rw [hstep, if_neg (by rw [hcount]; omega)]
        have h2 : k + (c - c) = k := by omega
        rw [h2]
      · have hlt : c < maxCalls := Nat.lt_of_le_of_ne h hc
        have hgate : checkCallLimit ⟨maxCalls, c⟩ = (⟨maxCalls, c + 1⟩, none) := by
          simp [checkCallLimit]
          omega
        have hstep : runSandboxOps ⟨maxCalls, c⟩ k (op :: rest) =
            runSandboxOps ⟨maxCalls, c + 1⟩ (k + 1) rest := by
          simp [runSandboxOps, hb, hgate]
        have hrec := ih (c + 1) (k + 1) (by omega)
        rw [hstep, hrec, hcount]
        by_cases hfit : c + 1 + countBillable rest ≤ maxCalls
        · rw [if_pos hfit, if_pos (by omega)]
          have h1 : c + 1 + countBillable rest = c + (countBillable rest + 1) := by omega
          have h2 : k + 1 + countBillable rest = k + (countBillable rest + 1) := by omega
          rw [h1, h2]
        · rw [if_neg hfit, if_neg (by omega)]
          have h2 : k + 1 + (maxCalls - (c + 1)) = k + (maxCalls - c) := by omega
          rw [h2]
    · have hb2 : op.billable = false := by
        cases hbv : op.billable
        · rfl
        · exact absurd hbv hb
      have hcount : countBillable (op :: rest) = countBillable rest := by
        simp [countBillable, List.filter_cons, hb2]
      rw [hcount]
      have hrec := ih c k h
      simp [runSandboxOps, hb2, hrec]

/-- C1: every billable Capability API method pre-increments `callCount`
before performing any work; whenever the post-increment value exceeds
`maxMcpCalls` the method fails with
`Maximum mcp.* call limit exceeded (maxMcpCalls)` without contacting the
registry (the failing invocation adds no registry contact, so the contact
count stops at `maxMcpCalls`); the final `callCount` — reported as
`stats.mcpCalls` — equals the number of billable invocations that began,
while `sleep` and `log` never increment it. -/
theorem capability_call_accounting (maxCalls : Nat) (ops : List SandboxOp) :
    (countBillable ops ≤ maxCalls →
       runSandboxOps ⟨maxCalls, 0⟩ 0 ops =
         (⟨maxCalls, countBillable ops⟩, countBillable ops, none)) ∧
    (maxCalls < countBillable ops →
       runSandboxOps ⟨maxCalls, 0⟩ 0 ops =
         (⟨maxCalls, maxCalls + 1⟩, maxCalls, some (callLimitError maxCalls))) ∧
    ((∀ op ∈ ops, op.billable = false) →
       runSandboxOps ⟨maxCalls, 0⟩ 0 ops = (⟨maxCalls, 0⟩, 0, none)) := by
  have hchar := runSandboxOps_characterization maxCalls ops 0 0 (Nat.zero_le _)
  refine ⟨?_, ?_, ?_⟩
  · intro h
    rw [hchar, if_pos (by omega)]
    simp
  · intro h
    rw [hchar, if_neg (by omega)]
    simp
  · intro h
    have hzero : countBillable ops = 0 := by
      simp only [countBillable, List.length_eq_zero]
      exact List.filter_eq_nil_iff.mpr (fun op hop => by simp [h op hop])
    rw [hchar, hzero, if_pos (by omega)]

/-- C1 witness: with a budget of one call, the run
`listServers; sleep; listTools; log` halts at the second billable invocation:
`callCount` is 2 (both billable invocations began), only one registry contact
happened, and the error carries the canonical message; `sleep` and `log`
contributed nothing. -/
theorem capability_call_accounting_witness :
    1 < countBillable
        [SandboxOp.listServers, SandboxOp.sleep, SandboxOp.listTools, SandboxOp.log] ∧
    runSandboxOps ⟨1, 0⟩ 0
        [SandboxOp.listServers, SandboxOp.sleep, SandboxOp.listTools, SandboxOp.log] =
      (⟨1, 2⟩, 1, some (callLimitError 1)) :=
  ⟨by decide,
   (capability_call_accounting 1
      [SandboxOp.listServers, SandboxOp.sleep, SandboxOp.listTools, SandboxOp.log]).2.1
     (by decide)⟩

/-- Membership in the tools fan-out: an item appears exactly when it is a
tagged tool of some connected client whose enumeration succeeded. -/
theorem mem_listToolsAll (reg : Registry) (t : BackendTool) :
    t ∈ reg.listToolsAll ↔
      ∃ nc, nc ∈ reg.clients ∧ nc.2.connected = true ∧
        ∃ ts, nc.2.listTools = .ok ts ∧ ∃ td, td ∈ ts ∧ t = tagTool nc.1 td := by
  simp only [Registry.listToolsAll, List.mem_flatMap]
  constructor
  · rintro ⟨nc, hmem, ht⟩
    refine ⟨nc, hmem, ?_⟩
    by_cases hconn : nc.2.connected = true
    · rw [if_pos hconn] at ht
      refine ⟨hconn, ?_⟩
      cases hls : nc.2.listTools with
      | error e => rw [hls] at ht; simp at ht
      | ok ts =>
        rw [hls, List.mem_map] at ht
        obtain ⟨td, htd, hteq⟩ := ht
        exact ⟨ts, rfl, td, htd, hteq.symm⟩
    · rw [if_neg hconn] at ht
      simp at ht
  · rintro ⟨nc, hmem, hconn, ts, hls, td, htd, rfl⟩
    refine ⟨nc, hmem, ?_⟩
    rw [if_pos hconn, hls, List.mem_map]
    exact ⟨td, htd, rfl⟩

/-- Membership in the resources fan-out. -/
theorem mem_listResourcesAll (reg : Registry) (r : BackendResource) :
    r ∈ reg.listResourcesAll ↔
      ∃ nc, nc ∈ reg.clients ∧ nc.2.connected = true ∧
        ∃ rs, nc.2.listResources = .ok rs ∧ ∃ rd, rd ∈ rs ∧ r = tagResource nc.1 rd := by
  simp only [Registry.listResourcesAll, List.mem_flatMap]
  constructor
  · rintro ⟨nc, hmem, ht⟩
    refine ⟨nc, hmem, ?_⟩
    by_cases hconn : nc.2.connected = true
    · rw [if_pos hconn] at ht
      refine ⟨hconn, ?_⟩
      cases hls : nc.2.listResources with
      | error e => rw [hls] at ht; simp at ht
      | ok rs =>
        rw [hls, List.mem_map] at ht
        obtain ⟨rd, hrd, hteq⟩ := ht
        exact ⟨rs, rfl, rd, hrd, hteq.symm⟩
    · rw [if_neg hconn] at ht
      simp at ht
  · rintro ⟨nc, hmem, hconn, rs, hls, rd, hrd, rfl⟩
    refine ⟨nc, hmem, ?_⟩
    rw [if_pos hconn, hls, List.mem_map]
    exact ⟨rd, hrd, rfl⟩

/-- Membership in the resource-templates fan-out. -/
theorem mem_listResourceTemplatesAll (reg : Registry) (t : BackendResourceTemplate) :
    t ∈ reg.listResourceTemplatesAll ↔
      ∃ nc, nc ∈ reg.clients ∧ nc.2.connected = true ∧
        ∃ ts, nc.2.listResourceTemplates = .ok ts ∧ ∃ td, td ∈ ts ∧ t = tagTemplate nc.1 td := by
  simp only [Registry.listResourceTemplatesAll, List.mem_flatMap]
  constructor
  · rintro ⟨nc, hmem, ht⟩
    refine ⟨nc, hmem, ?_⟩
    by_cases hconn : nc.2.connected = true
    · rw [if_pos hconn] at ht
      refine ⟨hconn, ?_⟩
      cases hls : nc.2.listResourceTemplates with
      | error e => rw [hls] at ht; simp at ht
      | ok ts =>
        rw [hls, List.mem_map] at ht
        obtain ⟨td, htd, hteq⟩ := ht
        exact ⟨ts, rfl, td, htd, hteq.symm⟩
    · rw [if_neg hconn] at ht
      simp at ht
  · rintro ⟨nc, hmem, hconn, ts, hls, td, htd, rfl⟩
    refine ⟨nc, hmem, ?_⟩
    rw [if_pos hconn, hls, List.mem_map]
    exact ⟨td, htd, rfl⟩

/-- Membership in the prompts fan-out. -/
theorem mem_listPromptsAll (reg : Registry) (p : BackendPrompt) :
    p ∈ reg.listPromptsAll ↔
      ∃ nc, nc ∈ reg.clients ∧ nc.2.connected = true ∧
        ∃ ps, nc.2.listPrompts = .ok ps ∧ ∃ pd, pd ∈ ps ∧ p = tagPrompt nc.1 pd := by
  simp only [Registry.listPromptsAll, List.mem_flatMap]
  constructor
  · rintro ⟨nc, hmem, ht⟩
    refine ⟨nc, hmem, ?_⟩
    by_cases hconn : nc.2.connected = true
    · rw [if_pos hconn] at ht
      refine ⟨hconn, ?_⟩
      cases hls : nc.2.listPrompts with
      | error e => rw [hls] at ht; simp at ht
      | ok ps =>
        rw [hls, List.mem_map] at ht
        obtain ⟨pd, hpd, hteq⟩ := ht
        exact ⟨ps, rfl, pd, hpd, hteq.symm⟩
    · rw [if_neg hconn] at ht
      simp at ht
  · rintro ⟨nc, hmem, hconn, ps, hls, pd, hpd, rfl⟩
    refine ⟨nc, hmem, ?_⟩
    rw [if_pos hconn, hls, List.mem_map]
    exact ⟨pd, hpd, rfl⟩

/-- C5: each registry fan-out enumeration (listTools, listResources,
listResourceTemplates, listPrompts with no server name) never raises
(the fan-out branch is `.ok`), enumerates exactly the connected clients whose
enumeration succeeded — a server in any other state, or whose enumeration
throws, contributes nothing — and tags every returned item with the name of
the server it came from. -/
theorem registry_fanout_connected_only (reg : Registry) :
    reg.listTools none = .ok reg.listToolsAll ∧
    (∀ t, t ∈ reg.listToolsAll ↔
       ∃ nc, nc ∈ reg.clients ∧ nc.2.connected = true ∧
         ∃ ts, nc.2.listTools = .ok ts ∧ ∃ td, td ∈ ts ∧ t = tagTool nc.1 td) ∧
    (∀ t, t ∈ reg.listToolsAll →
       ∃ nc, nc ∈ reg.clients ∧ nc.2.connected = true ∧ t.server = nc.1) ∧
    reg.listResources none = .ok reg.listResourcesAll ∧
    (∀ r, r ∈ reg.listResourcesAll ↔
       ∃ nc, nc ∈ reg.clients ∧ nc.2.connected = true ∧
         ∃ rs, nc.2.listResources = .ok rs ∧ ∃ rd, rd ∈ rs ∧ r = tagResource nc.1 rd) ∧
    (∀ r, r ∈ reg.listResourcesAll →
       ∃ nc, nc ∈ reg.clients ∧ nc.2.connected = true ∧ r.server = nc.1) ∧
    reg.listResourceTemplates none = .ok reg.listResourceTemplatesAll ∧
    (∀ t, t ∈ reg.listResourceTemplatesAll ↔
       ∃ nc, nc ∈ reg.clients ∧ nc.2.connected = true ∧
         ∃ ts, nc.2.listResourceTemplates = .ok ts ∧
           ∃ td, td ∈ ts ∧ t = tagTemplate nc.1 td) ∧
    (∀ t, t ∈ reg.listResourceTemplatesAll →
       ∃ nc, nc ∈ reg.clients ∧ nc.2.connected = true ∧ t.server = nc.1) ∧
    reg.listPrompts none = .ok reg.listPromptsAll ∧
    (∀ p, p ∈ reg.listPromptsAll ↔
       ∃ nc, nc ∈ reg.clients ∧ nc.2.connected = true ∧
         ∃ ps, nc.2.listPrompts = .ok ps ∧ ∃ pd, pd ∈ ps ∧ p = tagPrompt nc.1 pd) ∧
    (∀ p, p ∈ reg.listPromptsAll →
       ∃ nc, nc ∈ reg.clients ∧ nc.2.connected = true ∧ p.server = nc.1) := by
  refine ⟨rfl, mem_listToolsAll reg, ?_, rfl, mem_listResourcesAll reg, ?_,
          rfl, mem_listResourceTemplatesAll reg, ?_,
          rfl, mem_listPromptsAll reg, ?_⟩
  · intro t ht
    obtain ⟨nc, hmem, hconn, _, _, td, _, rfl⟩ := (mem_listToolsAll reg t).mp ht
    exact ⟨nc, hmem, hconn, rfl⟩
  · intro r hr
    obtain ⟨nc, hmem, hconn, _, _, rd, _, rfl⟩ := (mem_listResourcesAll reg r).mp hr
    exact ⟨nc, hmem, hconn, rfl⟩
  · intro t ht
    obtain ⟨nc, hmem, hconn, _, _, td, _, rfl⟩ := (mem_listResourceTemplatesAll reg t).mp ht
    exact ⟨nc, hmem, hconn, rfl⟩
  · intro p hp
    obtain ⟨nc, hmem, hconn, _, _, pd, _, rfl⟩ := (mem_listPromptsAll reg p).mp hp
    exact ⟨nc, hmem, hconn, rfl⟩

/-- Membership in the spec-modelled matching-clients enumeration. -/
theorem mem_getMatchingClients (parse : RegexCompiler) (session : SessionState)
    (pat : Option String) (nc : String × SessionClient) :
    nc ∈ getMatchingClients parse session pat ↔
      ∃ c, c ∈ session.connections ∧ c.status = ServerStatus.connected ∧
        matchesServerFilter parse c.name pat = true ∧ nc = (c.name, c.client) := by
  simp only [getMatchingClients, List.mem_map, List.mem_filter, Bool.and_eq_true,
    beq_iff_eq]
  constructor
  · rintro ⟨c, ⟨hc, hst, hf⟩, rfl⟩
    exact ⟨c, hc, hst, hf, rfl⟩
  · rintro ⟨c, hc, hst, hf, rfl⟩
    exact ⟨c, ⟨hc, hst, hf⟩, rfl⟩

/-- Membership in the tool search results: an item is kept exactly when some
connected connection passes the server filter, its enumeration succeeded, and
the tool's name or description matches the query. -/
theorem mem_searchTools (parse : RegexCompiler) (sess : SessionState) (qr : Regex)
    (pat : Option String) (inc : Option Bool) (item : SearchToolResult) :
    item ∈ searchTools parse sess qr pat inc ↔
      ∃ c, c ∈ sess.connections ∧ c.status = ServerStatus.connected ∧
        matchesServerFilter parse c.name pat = true ∧
        ∃ ts, c.client.listTools = .ok ts ∧
          ∃ t, t ∈ ts ∧
            (matchesQuery (some t.name) qr || matchesQuery t.description qr) = true ∧
            item = { server := c.name, name := t.name, description := t.description,
                     inputSchema :=
                       if inc.getD false then some t.inputSchema else none } := by
  simp only [searchTools, List.mem_flatMap]
  constructor
  · rintro ⟨nc, hnc, hitem⟩
    rw [mem_getMatchingClients] at hnc
    obtain ⟨c, hc, hst, hf, rfl⟩ := hnc
    simp only [hf, Bool.not_true, Bool.false_eq_true, if_false] at hitem
    cases hls : c.client.listTools with
    | error e => rw [hls] at hitem; simp at hitem
    | ok ts =>
      rw [hls, List.mem_filterMap] at hitem
      obtain ⟨t, ht, heq⟩ := hitem
      by_cases hcond :
          (matchesQuery (some t.name) qr || matchesQuery t.description qr) = true
      · rw [if_pos hcond] at heq
        injection heq with heq
        exact ⟨c, hc, hst, hf, ts, hls, t, ht, hcond, heq.symm⟩
      · rw [if_neg hcond] at heq
        cases heq
  · rintro ⟨c, hc, hst, hf, ts, hls, t, ht, hcond, rfl⟩
    refine ⟨(c.name, c.client), (mem_getMatchingClients parse sess pat _).mpr
      ⟨c, hc, hst, hf, rfl⟩, ?_⟩
    simp only [hf, Bool.not_true, Bool.false_eq_true, if_false, hls,
      List.mem_filterMap]
    exact ⟨t, ht, by rw [if_pos hcond]⟩

/-- Membership in the resource search results: kept exactly when name, uri or
description matches. -/
theorem mem_searchResources (parse : RegexCompiler) (sess : SessionState)
    (qr : Regex) (pat : Option String) (item : SearchResourceResult) :
    item ∈ searchResources parse sess qr pat ↔
      ∃ c, c ∈ sess.connections ∧ c.status = ServerStatus.connected ∧
        matchesServerFilter parse c.name pat = true ∧
        ∃ rs, c.client.listResources = .ok rs ∧
          ∃ r, r ∈ rs ∧
            (matchesQuery (some r.name) qr || matchesQuery (some r.uri) qr ||
               matchesQuery r.description qr) = true ∧
            item = { server := c.name, uri := r.uri, name := r.name,
                     description := r.description, mimeType := r.mimeType } := by
  simp only [searchResources, List.mem_flatMap]
  constructor
  · rintro ⟨nc, hnc, hitem⟩
    rw [mem_getMatchingClients] at hnc
    obtain ⟨c, hc, hst, hf, rfl⟩ := hnc
    simp only [hf, Bool.not_true, Bool.false_eq_true, if_false] at hitem
    cases hls : c.client.listResources with
    | error e => rw [hls] at hitem; simp at hitem
    | ok rs =>
      rw [hls, List.mem_filterMap] at hitem
      obtain ⟨r, hr, heq⟩ := hitem
      by_cases hcond :
          (matchesQuery (some r.name) qr || matchesQuery (some r.uri) qr ||
             matchesQuery r.description qr) = true
      · rw [if_pos hcond] at heq
        injection heq with heq
        exact ⟨c, hc, hst, hf, rs, hls, r, hr, hcond, heq.symm⟩
      · rw [if_neg hcond] at heq
        cases heq
  · rintro ⟨c, hc, hst, hf, rs, hls, r, hr, hcond, rfl⟩
    refine ⟨(c.name, c.client), (mem_getMatchingClients parse sess pat _).mpr
      ⟨c, hc, hst, hf, rfl⟩, ?_⟩
    simp only [hf, Bool.not_true, Bool.false_eq_true, if_false, hls,
      List.mem_filterMap]
    exact ⟨r, hr, by rw [if_pos hcond]⟩

/-- Membership in the prompt search results: kept exactly when name or
description matches. -/
theorem mem_searchPrompts (parse : RegexCompiler) (sess : SessionState)
    (qr : Regex) (pat : Option String) (item : SearchPromptResult) :
    item ∈ searchPrompts parse sess qr pat ↔
      ∃ c, c ∈ sess.connections ∧ c.status = ServerStatus.connected ∧
        matchesServerFilter parse c.name pat = true ∧
        ∃ ps, c.client.listPrompts = .ok ps ∧
          ∃ p, p ∈ ps ∧
            (matchesQuery (some p.name) qr || matchesQuery p.description qr) = true ∧
            item = { server := c.name, name := p.name, description := p.description,
                     arguments := p.arguments.map (fun args =>
                       args.map (fun arg => ⟨arg.name, arg.required⟩)) } := by
  simp only [searchPrompts, List.mem_flatMap]
  constructor
  · rintro ⟨nc, hnc, hitem⟩
    rw [mem_getMatchingClients] at hnc
    obtain ⟨c, hc, hst, hf, rfl⟩ := hnc
    simp only [hf, Bool.not_true, Bool.false_eq_true, if_false] at hitem
    cases hls : c.client.listPrompts with
    | error e => rw [hls] at hitem; simp at hitem
    | ok ps =>
      rw [hls, List.mem_filterMap] at hitem
      obtain ⟨p, hp, heq⟩ := hitem
      by_cases hcond :
          (matchesQuery (some p.name) qr || matchesQuery p.description qr) = true
      · rw [if_pos hcond] at heq
        injection heq with heq
        exact ⟨c, hc, hst, hf, ps, hls, p, hp, hcond, heq.symm⟩
      · rw [if_neg hcond] at heq
        cases heq
  · rintro ⟨c, hc, hst, hf, ps, hls, p, hp, hcond, rfl⟩
    refine ⟨(c.name, c.client), (mem_getMatchingClients parse sess pat _).mpr
      ⟨c, hc, hst, hf, rfl⟩, ?_⟩
    simp only [hf, Bool.not_true, Bool.false_eq_true, if_false, hls,
      List.mem_filterMap]
    exact ⟨p, hp, by rw [if_pos hcond]⟩

/-- Membership in the server search results: every registered server of the
snapshot that passes the server filter and whose name matches the query is
included, with its status reported as-is — connection status is not
filtered. -/
theorem mem_searchServers (parse : RegexCompiler) (sess : SessionState)
    (mgr : SessionManager) (qr : Regex) (pat : Option String)
    (item : SearchServerResult) :
    item ∈ searchServers parse sess mgr qr pat ↔
      ∃ s, s ∈ mgr.servers ∧ matchesServerFilter parse s.name pat = true ∧
        matchesQuery (some s.name) qr = true ∧
        item = { name := s.name, status := s.status,
                 capabilities :=
                   { tools := (((sess.getConnection s.name).bind
                        (fun c => c.client.capabilities)).map (fun k => k.tools)).getD false,
                     resources := (((sess.getConnection s.name).bind
                        (fun c => c.client.capabilities)).map (fun k => k.resources)).getD false,
                     prompts := (((sess.getConnection s.name).bind
                        (fun c => c.client.capabilities)).map (fun k => k.prompts)).getD false } } := by
  simp only [searchServers, SessionManager.listServers, List.mem_filterMap]
  constructor
  · rintro ⟨s, hs, heq⟩
    by_cases hf : matchesServerFilter parse s.name pat = true
    · simp only [hf, Bool.not_true, Bool.false_eq_true, if_false] at heq
      by_cases hq : matchesQuery (some s.name) qr = true
      · rw [if_pos hq] at heq
        injection heq with heq
        exact ⟨s, hs, hf, hq, heq.symm⟩
      · rw [if_neg hq] at heq
        cases heq
    · have hf2 : matchesServerFilter parse s.name pat = false := by
        cases hx : matchesServerFilter parse s.name pat
        · rfl
        · exact absurd hx hf
      rw [hf2] at heq
      simp at heq
  · rintro ⟨s, hs, hf, hq, rfl⟩
    refine ⟨s, hs, ?_⟩
    simp only [hf, Bool.not_true, Bool.false_eq_true, if_false]
    rw [if_pos hq]

/-- C3 counterexample: the claim says the servers kind includes only
connected servers, but `searchServers` applies no status filter.  With one
registered server `alpha` whose status is disconnected and no live
connection, a servers search for `alpha` returns that server — its reported
status is `disconnected`, not `connected`. -/
theorem searchServers_includes_disconnected :
    ((search parseAll ⟨"alpha", SearchType.servers, none, none⟩
        sessionEmpty managerAlpha).servers.getD []).map
      (fun r => r.status) = [ServerStatus.disconnected] := by rfl

/-- C3 (amended): tools, resources and prompts fan out only to connected
servers passing the server filter and keep an item exactly when its name,
its description, or (for resources only) its uri matches the query regex;
the servers kind includes every registered server of the snapshot that
passes the server filter and whose name matches the query, regardless of its
connection status (the status is reported as-is). -/
theorem search_kind_filtering (parse : RegexCompiler) (sess : SessionState)
    (mgr : SessionManager) (qr : Regex) (pat : Option String) (inc : Option Bool) :
    (∀ item, item ∈ searchTools parse sess qr pat inc ↔
       ∃ c, c ∈ sess.connections ∧ c.status = ServerStatus.connected ∧
         matchesServerFilter parse c.name pat = true ∧
         ∃ ts, c.client.listTools = .ok ts ∧
           ∃ t, t ∈ ts ∧
             (matchesQuery (some t.name) qr || matchesQuery t.description qr) = true ∧
             item = { server := c.name, name := t.name, description := t.description,
                      inputSchema :=
                        if inc.getD false then some t.inputSchema else none }) ∧
    (∀ item, item ∈ searchResources parse sess qr pat ↔
       ∃ c, c ∈ sess.connections ∧ c.status = ServerStatus.connected ∧
         matchesServerFilter parse c.name pat = true ∧
         ∃ rs, c.client.listResources = .ok rs ∧
           ∃ r, r ∈ rs ∧
             (matchesQuery (some r.name) qr || matchesQuery (some r.uri) qr ||
                matchesQuery r.description qr) = true ∧
             item = { server := c.name, uri := r.uri, name := r.name,
                      description := r.description, mimeType := r.mimeType }) ∧
    (∀ item, item ∈ searchPrompts parse sess qr pat ↔
       ∃ c, c ∈ sess.connections ∧ c.status = ServerStatus.connected ∧
         matchesServerFilter parse c.name pat = true ∧
         ∃ ps, c.client.listPrompts = .ok ps ∧
           ∃ p, p ∈ ps ∧
             (matchesQuery (some p.name) qr || matchesQuery p.description qr) = true ∧
             item = { server := c.name, name := p.name, description := p.description,
                      arguments := p.arguments.map (fun args =>
                        args.map (fun arg => ⟨arg.name, arg.required⟩)) }) ∧
    (∀ item, item ∈ searchServers parse sess mgr qr pat ↔
       ∃ s, s ∈ mgr.servers ∧ matchesServerFilter parse s.name pat = true ∧
         matchesQuery (some s.name) qr = true ∧
         item = { name := s.name, status := s.status,
                  capabilities :=
                    { tools := (((sess.getConnection s.name).bind
                         (fun c => c.client.capabilities)).map (fun k => k.tools)).getD false,
                      resources := (((sess.getConnection s.name).bind
                         (fun c => c.client.capabilities)).map (fun k => k.resources)).getD false,
                      prompts := (((sess.getConnection s.name).bind
                         (fun c => c.client.capabilities)).map (fun k => k.prompts)).getD false } }) :=
  ⟨mem_searchTools parse sess qr pat inc,
   mem_searchResources parse sess qr pat,
   mem_searchPrompts parse sess qr pat,
   mem_searchServers parse sess mgr qr pat⟩

/-- C4: a failing backend enumeration contributes no items — removing the
failing connection from the session leaves each kind's results unchanged —
and the search never raises: when every backend's enumerations fail, the
tool, resource and prompt results are empty, and `search` still returns a
grouped result whose requested enumeration categories are empty lists. -/
theorem search_failure_suppression (parse : RegexCompiler) (sid : String)
    (pre post : List Connection) (c : Connection) (e1 e2 e3 : String)
    (qr : Regex) (pat : Option String) (inc : Option Bool)
    (conns : List Connection) (q : SearchQuery) (mgr : SessionManager) :
    (c.client.listTools = .error e1 →
       searchTools parse ⟨sid, pre ++ c :: post⟩ qr pat inc =
         searchTools parse ⟨sid, pre ++ post⟩ qr pat inc) ∧
    (c.client.listResources = .error e2 →
       searchResources parse ⟨sid, pre ++ c :: post⟩ qr pat =
         searchResources parse ⟨sid, pre ++ post⟩ qr pat) ∧
    (c.client.listPrompts = .error e3 →
       searchPrompts parse ⟨sid, pre ++ c :: post⟩ qr pat =
         searchPrompts parse ⟨sid, pre ++ post⟩ qr pat) ∧
    ((∀ cc ∈ conns,
        (∃ a, cc.client.listTools = .error a) ∧
        (∃ b, cc.client.listResources = .error b) ∧
        (∃ d, cc.client.listPrompts = .error d)) →
       searchTools parse ⟨sid, conns⟩ qr pat inc = [] ∧
       searchResources parse ⟨sid, conns⟩ qr pat = [] ∧
       searchPrompts parse ⟨sid, conns⟩ qr pat = [] ∧
       ((search parse q ⟨sid, conns⟩ mgr).tools = none ∨
          (search parse q ⟨sid, conns⟩ mgr).tools = some []) ∧
       ((search parse q ⟨sid, conns⟩ mgr).resources = none ∨
          (search parse q ⟨sid, conns⟩ mgr).resources = some []) ∧
       ((search parse q ⟨sid, conns⟩ mgr).prompts = none ∨
          (search parse q ⟨sid, conns⟩ mgr).prompts = some [])) := by
  refine ⟨?_, ?_, ?_, ?_⟩
  · intro h
    simp only [searchTools, getMatchingClients, List.filter_append, List.filter_cons]
    by_cases hp : (c.status == ServerStatus.connected &&
        matchesServerFilter parse c.name pat) = true
    · rw [if_pos hp]
      have hfilter : matchesServerFilter parse c.name pat = true := by
        simp only [Bool.and_eq_true] at hp
        exact hp.2
      simp [hfilter, h]
    · rw [if_neg hp]
  · intro h
    simp only [searchResources, getMatchingClients, List.filter_append, List.filter_cons]
    by_cases hp : (c.status == ServerStatus.connected &&
        matchesServerFilter parse c.name pat) = true
    · rw [if_pos hp]
      have hfilter : matchesServerFilter parse c.name pat = true := by
        simp only [Bool.and_eq_true] at hp
        exact hp.2
      simp [hfilter, h]
    · rw [if_neg hp]
  · intro h
    simp only [searchPrompts, getMatchingClients, List.filter_append, List.filter_cons]
    by_cases hp : (c.status == ServerStatus.connected &&
        matchesServerFilter parse c.name pat) = true
    · rw [if_pos hp]
      have hfilter : matchesServerFilter parse c.name pat = true := by
        simp only [Bool.and_eq_true] at hp
        exact hp.2
      simp [hfilter, h]
    · rw [if_neg hp]
  · intro hall
    have htools : ∀ (qr2 : Regex) (pat2 : Option String) (inc2 : Option Bool),
        searchTools parse ⟨sid, conns⟩ qr2 pat2 inc2 = [] := by
      intro qr2 pat2 inc2
      apply List.eq_nil_iff_forall_not_mem.mpr
      intro item hitem
      obtain ⟨c2, hc2, _, _, ts, hok, _⟩ := (mem_searchTools parse _ qr2 pat2 inc2 item).mp hitem
      obtain ⟨⟨a, ha⟩, _, _⟩ := hall c2 hc2
      rw [ha] at hok
      cases hok
    have hres : ∀ (qr2 : Regex) (pat2 : Option String),
        searchResources parse ⟨sid, conns⟩ qr2 pat2 = [] := by
      intro qr2 pat2
      apply List.eq_nil_iff_forall_not_mem.mpr
      intro item hitem
      obtain ⟨c2, hc2, _, _, rs, hok, _⟩ := (mem_searchResources parse _ qr2 pat2 item).mp hitem
      obtain ⟨_, ⟨b, hb⟩, _⟩ := hall c2 hc2
      rw [hb] at hok
      cases hok
    have hpr : ∀ (qr2 : Regex) (pat2 : Option String),
        searchPrompts parse ⟨sid, conns⟩ qr2 pat2 = [] := by
      intro qr2 pat2
      apply List.eq_nil_iff_forall_not_mem.mpr
      intro item hitem
      obtain ⟨c2, hc2, _, _, ps, hok, _⟩ := (mem_searchPrompts parse _ qr2 pat2 item).mp hitem
      obtain ⟨_, _, ⟨d, hd⟩⟩ := hall c2 hc2
      rw [hd] at hok
      cases hok
    refine ⟨htools qr pat inc, hres qr pat, hpr qr pat, ?_, ?_, ?_⟩
    · cases hcr : createQueryRegex parse q.query with
      | none => exact Or.inl (by simp [search, hcr, SearchResult.empty])
      | some qr2 =>
        by_cases hb : (q.type == SearchType.tools || q.type == SearchType.all) = true
        · exact Or.inr (by
            simp [search, hcr, hb, htools qr2 q.server q.includeSchemas])
        · have hb2 : (q.type == SearchType.tools || q.type == SearchType.all) = false := by
            cases hx : (q.type == SearchType.tools || q.type == SearchType.all)
            · rfl
            · exact absurd hx hb
          exact Or.inl (by simp [search, hcr, hb2])
    · cases hcr : createQueryRegex parse q.query with
      | none => exact Or.inl (by simp [search, hcr, SearchResult.empty])
      | some qr2 =>
        by_cases hb : (q.type == SearchType.resources || q.type == SearchType.all) = true
        · exact Or.inr (by simp [search, hcr, hb, hres qr2 q.server])
        · have hb2 : (q.type == SearchType.resources || q.type == SearchType.all) = false := by
            cases hx : (q.type == SearchType.resources || q.type == SearchType.all)
            · rfl
            · exact absurd hx hb
          exact Or.inl (by simp [search, hcr, hb2])
    · cases hcr : createQueryRegex parse q.query with
      | none => exact Or.inl (by simp [search, hcr, SearchResult.empty])
      | some qr2 =>
        by_cases hb : (q.type == SearchType.prompts || q.type == SearchType.all) = true
        · exact Or.inr (by simp [search, hcr, hb, hpr qr2 q.server])
        · have hb2 : (q.type == SearchType.prompts || q.type == SearchType.all) = false := by
            cases hx : (q.type == SearchType.prompts || q.type == SearchType.all)
            · rfl
            · exact absurd hx hb
          exact Or.inl (by simp [search, hcr, hb2])

/-- C4 witness: on a session whose single connected backend fails every
enumeration, a tools search returns no items, and the grouped result carries
the empty tools list rather than an error. -/
theorem search_failure_suppression_witness :
    searchTools parseAll sessionFail regexAll none none = [] ∧
    ((search parseAll ⟨"x", SearchType.tools, none, none⟩ sessionFail managerAlpha).tools
        = none ∨
     (search parseAll ⟨"x", SearchType.tools, none, none⟩ sessionFail managerAlpha).tools
        = some []) := by
  have h := (search_failure_suppression parseAll "session-2" [] [] connFail
      "boom" "boom" "boom" regexAll none none sessionFail.connections
      ⟨"x", SearchType.tools, none, none⟩ managerAlpha).2.2.2
    (by
      intro cc hcc
      have hc : cc = connFail := by simpa [sessionFail] using hcc
      subst hc
      exact ⟨⟨"boom", rfl⟩, ⟨"boom", rfl⟩, ⟨"boom", rfl⟩⟩)
  exact ⟨h.1, h.2.2.2.1⟩

end Emceepee
